import Mathlib

/-!
Verification development for the storefront backend's order-placement and
catalog-cache subsystem (order.service.ts, product.service.ts,
redis.util.ts, product.routes.ts, order.routes.ts, product.controller.ts).

Numeric fields that are JavaScript numbers in the source (price, stock,
quantity, page, limit) are modelled as `Int`; all values that reach these
fields in the source have gone through parseInt/parseFloat at the boundary.
Fallible operations return `Except`, mirroring thrown errors.  A Prisma
`$transaction` is modelled by threading a working copy of the store through
the transaction body and discarding it (keeping the pre-transaction store)
when the body throws.
-/

namespace ECom

/-- A JSON value, the wire format of the catalog cache (`JSON.stringify` /
`JSON.parse` in the source).  Catalog results contain only strings,
numbers, nulls, arrays and objects, so no boolean case is needed. -/
inductive Json where
  | null : Json
  | num (n : Int) : Json
  | str (s : String) : Json
  | arr (xs : List Json) : Json
  | obj (fields : List (String × Json)) : Json
deriving Inhabited

instance {ε α : Type} [DecidableEq ε] [DecidableEq α] : DecidableEq (Except ε α) := fun a b =>
  match a, b with
  | Except.error e1, Except.error e2 =>
    if h : e1 = e2 then Decidable.isTrue (by rw [h])
    else Decidable.isFalse (by intro hh; cases hh; exact h rfl)
  | Except.ok v1, Except.ok v2 =>
    if h : v1 = v2 then Decidable.isTrue (by rw [h])
    else Decidable.isFalse (by intro hh; cases hh; exact h rfl)
  | Except.error e1, Except.ok v2 => Decidable.isFalse (by intro hh; cases hh)
  | Except.ok v1, Except.error e2 => Decidable.isFalse (by intro hh; cases hh)

/-- A row of the `Product` table (prisma schema: id, name, description,
price, stock, category, imageUrl, userId, createdAt). -/
structure Product where
  id : String
  name : String
  description : String
  price : Int
  stock : Int
  category : String
  imageUrl : Option String
  userId : String
  createdAt : Int
deriving Repr, DecidableEq

/-- A row of the `Order` table. -/
structure OrderRow where
  id : Nat
  userId : String
  description : Option String
  totalPrice : Int
  status : String
deriving Repr, DecidableEq

/-- A row of the `OrderItem` table. -/
structure OrderItemRow where
  orderId : Nat
  productId : String
  quantity : Int
  price : Int
deriving Repr, DecidableEq

/-- The relational store: the tables touched by the subsystem, plus a
counter standing in for the database's fresh order-id generation. -/
structure Store where
  products : List Product
  orders : List OrderRow
  orderItems : List OrderItemRow
  nextOrderId : Nat
deriving Repr, DecidableEq

/-- `prisma.product.findUnique({ where: { id } })`. -/
def findProduct (s : Store) (pid : String) : Option Product :=
  s.products.find? (fun p => p.id == pid)

/-- Database invariant: product ids are primary keys, hence pairwise
distinct. -/
def idsNodup (s : Store) : Prop :=
  (s.products.map Product.id).Nodup

/-- The stock invariant: no product row holds a negative stock count. -/
def stocksNonneg (s : Store) : Prop :=
  ∀ p ∈ s.products, 0 ≤ p.stock

instance (s : Store) : Decidable (idsNodup s) := by
  unfold idsNodup; infer_instance

instance (s : Store) : Decidable (stocksNonneg s) := by
  unfold stocksNonneg; infer_instance

/-- One requested line of an order: the `OrderProduct` interface of
order.service.ts.  Note that the request carries no price field at all. -/
structure OrderProduct where
  productId : String
  quantity : Int
deriving Repr, DecidableEq

/-- The `CreateOrderData` interface of order.service.ts. -/
structure CreateOrderData where
  userId : String
  description : Option String
  products : List OrderProduct
deriving Repr, DecidableEq

/-- One element of the `orderItems` accumulator built during the pre-check
phase of `createOrder`: productId, quantity, and the authoritative price
`product.price * quantity` computed from the database row. -/
structure PricedItem where
  productId : String
  quantity : Int
  price : Int
deriving Repr, DecidableEq

/-- The errors thrown by `createOrder`, with the payloads its messages
carry: the missing product id for not-found (HTTP 404), and the product
name, available stock and requested quantity for insufficient stock
(HTTP 400). -/
inductive OrderError where
  | emptyOrder : OrderError
  | invalidProduct : OrderError
  | notFound (productId : String) : OrderError
  | insufficientStock (name : String) (available : Int) (requested : Int) : OrderError
deriving Repr, DecidableEq

/-- The pre-check loop of `createOrder` (order.service.ts lines 77-116):
for each line, reject an empty productId or a quantity that is zero,
negative (or, as a JS falsy value, absent); look the product up, failing
with not-found naming the id if absent and with insufficient-stock naming
name/available/requested if `product.stock < quantity`; accumulate the
authoritative line price `product.price * quantity` and the running total. -/
def precheckItems (s : Store) : List OrderProduct → Except OrderError (Int × List PricedItem)
  | [] => Except.ok (0, [])
  | item :: rest =>
    if item.productId = "" ∨ item.quantity ≤ 0 then
      Except.error OrderError.invalidProduct
    else
      match findProduct s item.productId with
      | none => Except.error (OrderError.notFound item.productId)
      | some product =>
        if product.stock < item.quantity then
          Except.error (OrderError.insufficientStock product.name product.stock item.quantity)
        else
          match precheckItems s rest with
          | Except.error e => Except.error e
          | Except.ok (total, items) =>
            Except.ok (product.price * item.quantity + total,
              ⟨item.productId, item.quantity, product.price * item.quantity⟩ :: items)

/-- The pre-check phase of `createOrder` (order.service.ts lines 68-116):
an empty (or missing) products array is rejected up front, then each line
is validated and priced by `precheckItems`. -/
def precheck (s : Store) (d : CreateOrderData) : Except OrderError (Int × List PricedItem) :=
  if d.products = [] then Except.error OrderError.emptyOrder
  else precheckItems s d.products

/-- `stock: { decrement: qty }` on the row with the given id:
`prisma.product.update` targets the unique row whose primary key matches. -/
def decrementStock (ps : List Product) (pid : String) (qty : Int) : List Product :=
  ps.map (fun p => if p.id == pid then { p with stock := p.stock - qty } else p)

/-- The per-line body of the `createOrder` transaction (order.service.ts
lines 133-169): re-read the product inside the transaction, fail if it is
gone or if its current stock is below the requested quantity, otherwise
create the OrderItem row and decrement the stock. -/
def txItems (orderId : Nat) : Store → List PricedItem → Except OrderError Store
  | s, [] => Except.ok s
  | s, item :: rest =>
    match findProduct s item.productId with
    | none => Except.error (OrderError.notFound item.productId)
    | some product =>
      if product.stock < item.quantity then
        Except.error (OrderError.insufficientStock product.name product.stock item.quantity)
      else
        txItems orderId
          { s with
            orderItems := s.orderItems ++ [⟨orderId, item.productId, item.quantity, item.price⟩],
            products := decrementStock s.products item.productId item.quantity }
          rest

/-- The `prisma.$transaction` body of `createOrder` (order.service.ts lines
120-197): create the Order row with status "pending" and the pre-computed
total, then process every line.  The caller treats an `error` result as a
rolled-back transaction. -/
def runTx (s : Store) (userId : String) (description : Option String) (totalPrice : Int)
    (items : List PricedItem) : Except OrderError Store :=
  txItems s.nextOrderId
    { s with
      orders := s.orders ++ [⟨s.nextOrderId, userId, description, totalPrice, "pending"⟩],
      nextOrderId := s.nextOrderId + 1 }
    items

/-- What `createOrder` returns on success, as far as the claims need it:
the id of the created order and its authoritative total. -/
structure OrderResult where
  orderId : Nat
  totalPrice : Int
deriving Repr, DecidableEq

/-- `createOrder` with the pre-check phase and the transaction phase
evaluated against possibly different store snapshots: the pre-check runs
outside the transaction, so concurrent commits may change the store
between the two phases (`sPre` is the snapshot the pre-check reads, `sTx`
the store the transaction runs against).  On any failure the resulting
store is `sTx` itself: the pre-check writes nothing and a failed
transaction is rolled back by the database. -/
def createOrderRaced (sPre sTx : Store) (d : CreateOrderData) :
    Store × Except OrderError OrderResult :=
  match precheck sPre d with
  | Except.error e => (sTx, Except.error e)
  | Except.ok (total, items) =>
    match runTx sTx d.userId d.description total items with
    | Except.error e => (sTx, Except.error e)
    | Except.ok sNew => (sNew, Except.ok ⟨sTx.nextOrderId, total⟩)

/-- `createOrder` of order.service.ts in a sequential run: both phases see
the same store. -/
def createOrder (s : Store) (d : CreateOrderData) : Store × Except OrderError OrderResult :=
  createOrderRaced s s d

/-! ## Catalog query engine and cache (product.service.ts, redis.util.ts) -/

/-- The `ProductOptions` bag of getProductList / generateProductListCacheKey,
after the boundary's parseInt/parseFloat: every numeric parameter is an
`Int`, every absent parameter is `none`. -/
structure ListOptions where
  page : Option Int := none
  pageSize : Option Int := none
  limit : Option Int := none
  category : Option String := none
  search : Option String := none
  minPrice : Option Int := none
  maxPrice : Option Int := none
  sortBy : Option String := none
  sortOrder : Option String := none
deriving Repr, DecidableEq

/-- JavaScript truthiness of an optional number: absent, or zero, is falsy. -/
def truthyNum : Option Int → Bool
  | none => false
  | some n => n != 0

/-- JavaScript truthiness of an optional string: absent, or empty, is falsy. -/
def truthyStr : Option String → Bool
  | none => false
  | some s => s != ""

/-- `limit || pageSize || 10` (redis.util.ts line 111), identical to the
`limit ? ... : pageSize ? ... : 10` cascade of product.service.ts lines
209-213 once the values are parsed. -/
def itemsPerPageOf (o : ListOptions) : Int :=
  if truthyNum o.limit then o.limit.getD 0
  else if truthyNum o.pageSize then o.pageSize.getD 0
  else 10

/-- `generateProductListCacheKey` (redis.util.ts lines 88-125): the parts
list, with a falsy (absent/zero/empty) parameter contributing the empty
string, which `.filter(Boolean)` then drops, joined with ":". -/
def generateProductListCacheKey (o : ListOptions) : String :=
  let page : Int := o.page.getD 1
  let itemsPerPage : Int := itemsPerPageOf o
  let parts : List String :=
    [ "products",
      "page:" ++ toString page,
      "limit:" ++ toString itemsPerPage,
      if truthyStr o.category then "category:" ++ o.category.getD "" else "",
      if truthyStr o.search then "search:" ++ o.search.getD "" else "",
      if truthyNum o.minPrice then "minPrice:" ++ toString (o.minPrice.getD 0) else "",
      if truthyNum o.maxPrice then "maxPrice:" ++ toString (o.maxPrice.getD 0) else "",
      if truthyStr o.sortBy then "sortBy:" ++ o.sortBy.getD "" else "",
      if truthyStr o.sortOrder then "sortOrder:" ++ o.sortOrder.getD "" else "" ]
  String.intercalate ":" (parts.filter (fun part => part ≠ ""))

/-- Prefix test on strings, written over the character lists so that it
evaluates inside the kernel. -/
def strStartsWith (pre s : String) : Bool :=
  decide (pre.toList <+: s.toList)

/-- Case-insensitive substring match: prisma
`{ contains: needle, mode: 'insensitive' }`. -/
def strContainsCI (hay needle : String) : Bool :=
  decide (needle.toLower.toList <:+: hay.toLower.toList)

/-- The where-clause of getProductList (product.service.ts lines 219-238):
category equality when category is truthy; case-insensitive name-substring
match when search is a non-blank string; inclusive price bounds whenever
minPrice/maxPrice are present (note: present, not truthy — an explicit 0
bound is applied). -/
def matchesWhere (o : ListOptions) (p : Product) : Bool :=
  (if truthyStr o.category then p.category == o.category.getD "" else true)
  && (match o.search with
      | some str => if str.trim = "" then true else strContainsCI p.name str.trim
      | none => true)
  && (match o.minPrice with
      | some m => m ≤ p.price
      | none => true)
  && (match o.maxPrice with
      | some m => p.price ≤ m
      | none => true)

/-- The orderBy clause (product.service.ts lines 241-248): the sort key is
price for sortBy="price", name for sortBy="name", and createdAt for
anything else; "asc" sorts ascending and any other direction value takes
the default descending branch.  `a` precedes `b` in the output when this
is true. -/
def orderLE (o : ListOptions) (a b : Product) : Bool :=
  let sortBy := o.sortBy.getD "createdAt"
  let keyLE : Product → Product → Bool := fun x y =>
    if sortBy = "price" then x.price ≤ y.price
    else if sortBy = "name" then decide (x.name ≤ y.name)
    else x.createdAt ≤ y.createdAt
  if o.sortOrder.getD "desc" = "asc" then keyLE a b else keyLE b a

/-- The projected product shape returned by getProductList (the `select`
of product.service.ts lines 256-265). -/
structure ProductSummary where
  id : String
  name : String
  price : Int
  stock : Int
  category : String
  description : String
  imageUrl : Option String
deriving Repr, DecidableEq

def productToSummary (p : Product) : ProductSummary :=
  ⟨p.id, p.name, p.price, p.stock, p.category, p.description, p.imageUrl⟩

/-- The `ProductListResult` interface of product.service.ts. -/
structure ProductListResult where
  products : List ProductSummary
  currentPage : Int
  pageSize : Int
  totalPages : Int
  totalProducts : Int
deriving Repr, DecidableEq

/-- Ceiling division on naturals: `Math.ceil(total / itemsPerPage)` for the
non-negative total and positive page size that reach the query (the route
validators bound the page size into 1..100). -/
def ceilDivNat (t n : Nat) : Nat := (t + n - 1) / n

/-- The store-only path of getProductList (product.service.ts lines
208-279): compute itemsPerPage/currentPage/skip/take, filter by the
where-clause, order, paginate with `skip`/`take`, count the matches, and
assemble the result with `totalPages = ceil(totalProducts/itemsPerPage)`. -/
def dbProductQuery (s : Store) (o : ListOptions) : ProductListResult :=
  let itemsPerPage : Int := itemsPerPageOf o
  let currentPage : Int := o.page.getD 1
  let skip : Int := (currentPage - 1) * itemsPerPage
  let filtered := s.products.filter (matchesWhere o)
  let sorted := filtered.mergeSort (orderLE o)
  let pageItems := (sorted.drop skip.toNat).take itemsPerPage.toNat
  { products := pageItems.map productToSummary,
    currentPage := currentPage,
    pageSize := itemsPerPage,
    totalPages := Int.ofNat (ceilDivNat filtered.length itemsPerPage.toNat),
    totalProducts := Int.ofNat filtered.length }

/-- The cache adapter state: the entries of the key-value store, plus a
flag modelling the adapter being unreachable (every call throws; the
wrappers in redis.util.ts catch, log and degrade). -/
structure CacheState where
  entries : List (String × Json)
  failed : Bool

/-- `getCache` (redis.util.ts lines 36-43): a read error is caught and
reported as a miss (`null`). -/
def getCache (c : CacheState) (key : String) : Option Json :=
  if c.failed then none
  else (c.entries.find? (fun kv => kv.1 == key)).map Prod.snd

/-- `setCache` (redis.util.ts lines 48-58): `setex` overwrites the key; a
write error is caught and swallowed, leaving the cache unchanged. -/
def setCache (c : CacheState) (key : String) (value : Json) : CacheState :=
  if c.failed then c
  else { c with entries := (key, value) :: c.entries.filter (fun kv => kv.1 != key) }

/-- `deleteCacheByPattern` (redis.util.ts lines 74-83) for the trailing-star
glob patterns used at every call site (`products:*`): every key that starts
with the pattern minus its final `*` is deleted; an error is caught and
swallowed, leaving the cache unchanged. -/
def deleteCacheByPattern (c : CacheState) (pattern : String) : CacheState :=
  if c.failed then c
  else { c with
         entries := c.entries.filter (fun kv => !(strStartsWith (pattern.dropRight 1) kv.1)) }

/-- JSON serialization of a catalog product summary (the shape
`JSON.stringify` produces for one element of `result.products`). -/
def encodeSummary (p : ProductSummary) : Json :=
  Json.obj
    [ ("id", Json.str p.id),
      ("name", Json.str p.name),
      ("price", Json.num p.price),
      ("stock", Json.num p.stock),
      ("category", Json.str p.category),
      ("description", Json.str p.description),
      ("imageUrl", match p.imageUrl with | some u => Json.str u | none => Json.null) ]

/-- JSON serialization of a full catalog result (`JSON.stringify(result)`
in product.service.ts line 283). -/
def encodeProductListResult (r : ProductListResult) : Json :=
  Json.obj
    [ ("products", Json.arr (r.products.map encodeSummary)),
      ("currentPage", Json.num r.currentPage),
      ("pageSize", Json.num r.pageSize),
      ("totalPages", Json.num r.totalPages),
      ("totalProducts", Json.num r.totalProducts) ]

/-- Field lookup in a JSON object. -/
def Json.getField (j : Json) (name : String) : Option Json :=
  match j with
  | Json.obj fields => (fields.find? (fun kv => kv.1 == name)).map Prod.snd
  | _ => none

def Json.asNum : Json → Option Int
  | Json.num n => some n
  | _ => none

def Json.asStr : Json → Option String
  | Json.str s => some s
  | _ => none

/-- `JSON.parse` of one cached product summary. -/
def decodeSummary (j : Json) : Option ProductSummary := do
  let id ← (← j.getField "id").asStr
  let name ← (← j.getField "name").asStr
  let price ← (← j.getField "price").asNum
  let stock ← (← j.getField "stock").asNum
  let category ← (← j.getField "category").asStr
  let description ← (← j.getField "description").asStr
  let imageUrl ←
    match ← j.getField "imageUrl" with
    | Json.null => some none
    | Json.str u => some (some u)
    | _ => none
  pure ⟨id, name, price, stock, category, description, imageUrl⟩

def decodeList (f : Json → Option α) : List Json → Option (List α)
  | [] => some []
  | j :: js => do
    let x ← f j
    let xs ← decodeList f js
    pure (x :: xs)

/-- `JSON.parse` of a cached catalog result (product.service.ts line 201). -/
def decodeProductListResult (j : Json) : Option ProductListResult := do
  let productsJson ←
    match ← j.getField "products" with
    | Json.arr xs => some xs
    | _ => none
  let products ← decodeList decodeSummary productsJson
  let currentPage ← (← j.getField "currentPage").asNum
  let pageSize ← (← j.getField "pageSize").asNum
  let totalPages ← (← j.getField "totalPages").asNum
  let totalProducts ← (← j.getField "totalProducts").asNum
  pure ⟨products, currentPage, pageSize, totalPages, totalProducts⟩

/-- `getProductList` (product.service.ts lines 181-290): build the cache
key, try the cache (a read error or an unparsable entry falls through to
the store), otherwise query the store and attempt to cache the result
(a write error is swallowed; the result is returned either way). -/
def getProductList (s : Store) (c : CacheState) (o : ListOptions) :
    ProductListResult × CacheState :=
  let cacheKey := generateProductListCacheKey o
  match (getCache c cacheKey).bind decodeProductListResult with
  | some cached => (cached, c)
  | none =>
    let result := dbProductQuery s o
    (result, setCache c cacheKey (encodeProductListResult result))

/-! ## Product mutations and the full order-placement operation -/

/-- The `CreateProductData` interface of product.service.ts, after the
boundary's parseFloat/parseInt. -/
structure CreateProductData where
  name : String
  description : String
  price : Int
  stock : Int
  category : String
  userId : String
  imageUrl : Option String
deriving Repr, DecidableEq

/-- The `UpdateProductData` interface of product.service.ts. -/
structure UpdateProductData where
  name : Option String := none
  description : Option String := none
  price : Option Int := none
  stock : Option Int := none
  category : Option String := none
  imageUrl : Option String := none
deriving Repr, DecidableEq

/-- Errors thrown by updateProduct/deleteProduct. -/
inductive ProductError where
  | notFound : ProductError
  | forbidden : ProductError
deriving Repr, DecidableEq

/-- `createProduct` (product.service.ts lines 81-113): insert the row
(`newId` standing in for the database-generated id, `now` for the
createdAt timestamp), then invalidate the catalog cache with pattern
`products:*`. -/
def createProduct (s : Store) (c : CacheState) (newId : String) (d : CreateProductData)
    (now : Int) : Store × CacheState :=
  let s2 : Store :=
    { s with
      products := s.products ++
        [⟨newId, d.name, d.description, d.price, d.stock, d.category, d.imageUrl, d.userId, now⟩] }
  (s2, deleteCacheByPattern c "products:*")

/-- The update-data preparation of updateProduct (product.service.ts lines
366-372): truthy name/description/category are applied (an empty string is
skipped), price/stock/imageUrl are applied whenever present (`!== undefined`,
so an explicit 0 is applied). -/
def applyUpdate (u : UpdateProductData) (p : Product) : Product :=
  let p := match u.name with
    | some n => if n = "" then p else { p with name := n }
    | none => p
  let p := match u.description with
    | some dsc => if dsc = "" then p else { p with description := dsc }
    | none => p
  let p := match u.price with
    | some v => { p with price := v }
    | none => p
  let p := match u.stock with
    | some v => { p with stock := v }
    | none => p
  let p := match u.category with
    | some cat => if cat = "" then p else { p with category := cat }
    | none => p
  match u.imageUrl with
  | some url => { p with imageUrl := some url }
  | none => p

/-- `updateProduct` (product.service.ts lines 337-396): 404 when the id is
unknown; 403 when the caller is neither admin nor the owner; otherwise
update the row and invalidate the catalog cache with pattern `products:*`. -/
def updateProduct (s : Store) (c : CacheState) (pid : String) (u : UpdateProductData)
    (isAdmin : Bool) (userId : Option String) : Except ProductError (Store × CacheState) :=
  match findProduct s pid with
  | none => Except.error ProductError.notFound
  | some existing =>
    if !isAdmin ∧ (userId = none ∨ userId ≠ some existing.userId) then
      Except.error ProductError.forbidden
    else
      let s2 : Store :=
        { s with products := s.products.map (fun p => if p.id == pid then applyUpdate u p else p) }
      Except.ok (s2, deleteCacheByPattern c "products:*")

/-- `deleteProduct` (product.service.ts lines 402-439): 404 when the id is
unknown; 403 when the caller is neither admin nor the owner; otherwise
delete the row and invalidate the catalog cache with pattern `products:*`. -/
def deleteProduct (s : Store) (c : CacheState) (pid : String) (isAdmin : Bool)
    (userId : Option String) : Except ProductError (Store × CacheState) :=
  match findProduct s pid with
  | none => Except.error ProductError.notFound
  | some existing =>
    if !isAdmin ∧ (userId = none ∨ userId ≠ some existing.userId) then
      Except.error ProductError.forbidden
    else
      let s2 : Store := { s with products := s.products.filter (fun p => p.id != pid) }
      Except.ok (s2, deleteCacheByPattern c "products:*")

/-- The complete order-placement operation as wired in the repository
(order.controller.ts createOrder → order.service.ts createOrder): the
order path contains no cache call at all, so the cache state passes
through unchanged whether the order succeeds or fails. -/
def placeOrder (s : Store) (c : CacheState) (d : CreateOrderData) :
    (Store × CacheState) × Except OrderError OrderResult :=
  let res := createOrder s d
  ((res.1, c), res.2)

/-- The option normalization performed by the getProductList controller
(product.controller.ts lines 72-89): a blank or absent search becomes
undefined (trimmed otherwise), and sortOrder falls back to "desc" via
`|| 'desc'` whenever it is absent or falsy. -/
def controllerOptions (page limit pageSize : Option Int) (category search : Option String)
    (minPrice maxPrice : Option Int) (sortBy sortOrder : Option String) : ListOptions :=
  { page := page,
    limit := limit,
    pageSize := pageSize,
    category := category,
    search :=
      match search with
      | some str => if str ≠ "" ∧ str.trim ≠ "" then some str.trim else none
      | none => none,
    minPrice := minPrice,
    maxPrice := maxPrice,
    sortBy := sortBy,
    sortOrder := some (if truthyStr sortOrder then sortOrder.getD "" else "desc") }

/-! ## Route validation predicates (product.routes.ts, order.routes.ts) -/

/-- The GET /products query validators (product.routes.ts): `page` is an
integer ≥ 1 when supplied, `limit` and `pageSize` are integers in 1..100
when supplied. -/
def ValidListQuery (o : ListOptions) : Prop :=
  (∀ p, o.page = some p → 1 ≤ p) ∧
  (∀ l, o.limit = some l → 1 ≤ l ∧ l ≤ 100) ∧
  (∀ l, o.pageSize = some l → 1 ≤ l ∧ l ≤ 100)

instance (o : ListOptions) : Decidable (ValidListQuery o) := by
  unfold ValidListQuery
  exact instDecidableAnd

/-- The POST /products and PUT /products/:id body validators
(product.routes.ts): `stock` must be an integer ≥ 0. -/
def ValidStockInput (stock : Int) : Prop := 0 ≤ stock

instance (stock : Int) : Decidable (ValidStockInput stock) := by
  unfold ValidStockInput; infer_instance

/-- No cache entry keyed with the catalog prefix `products:` remains. -/
def noCatalogEntries (c : CacheState) : Prop :=
  ∀ kv ∈ c.entries, strStartsWith "products:" kv.1 = false

/-! ## Concrete evaluation data -/

/-- A concrete product row used to evaluate the operations on closed
inputs. -/
def exProduct : Product :=
  ⟨"p1", "Laptop", "A fast laptop", 999, 5, "electronics", none, "u1", 100⟩

/-- A second concrete product row. -/
def exProduct2 : Product :=
  ⟨"p2", "Laptop Stand", "A stand", 50, 8, "electronics", none, "u1", 90⟩

/-- A concrete store holding the two products, no orders. -/
def exStore : Store := ⟨[exProduct, exProduct2], [], [], 0⟩

/-- A concrete cache holding one catalog entry and one unrelated entry. -/
def exCache : CacheState :=
  ⟨[("products:page:1:limit:10", Json.null), ("session:42", Json.null)], false⟩

/-! ## Helper lemmas about the order engine -/

/-- Requested quantity for one product id, summed over the priced lines. -/
def sumQtyPriced (l : List PricedItem) (pid : String) : Int :=
  ((l.filter (fun it => it.productId == pid)).map PricedItem.quantity).sum

/-- Requested quantity for one product id, summed over the request lines. -/
def sumQtyRequested (l : List OrderProduct) (pid : String) : Int :=
  ((l.filter (fun it => it.productId == pid)).map OrderProduct.quantity).sum

theorem findProduct_id (s : Store) (pid : String) (p : Product)
    (h : findProduct s pid = some p) : p.id = pid := by
  have := List.find?_some h
  simpa using this

theorem findProduct_mem (s : Store) (pid : String) (p : Product)
    (h : findProduct s pid = some p) : p ∈ s.products :=
  List.mem_of_find?_eq_some h

/-- With distinct primary keys, `findUnique` returns exactly the member
carrying the requested id. -/
theorem findProduct_eq_of_mem (s : Store) (hids : idsNodup s) (p : Product)
    (hp : p ∈ s.products) (q : Product) (hq : findProduct s p.id = some q) : q = p := by
  have hqmem := findProduct_mem s p.id q hq
  have hqid := findProduct_id s p.id q hq
  exact List.inj_on_of_nodup_map hids hqmem hp (by rw [hqid])

theorem decrementStock_map_id (ps : List Product) (pid : String) (qty : Int) :
    (decrementStock ps pid qty).map Product.id = ps.map Product.id := by
  unfold decrementStock
  rw [List.map_map]
  apply List.map_congr_left
  intro p _
  simp only [Function.comp]
  split <;> rfl

/-- Any failed order placement leaves the transaction-side store intact:
the pre-check phase writes nothing and the transaction is rolled back. -/
theorem createOrderRaced_error_state (sPre sTx : Store) (d : CreateOrderData) (e : OrderError)
    (h : (createOrderRaced sPre sTx d).2 = Except.error e) :
    (createOrderRaced sPre sTx d).1 = sTx := by
  unfold createOrderRaced at *
  cases hp : precheck sPre d with
  | error e2 => simp [hp]
  | ok v =>
    obtain ⟨total, items⟩ := v
    cases hr : runTx sTx d.userId d.description total items with
    | error e2 => simp [hp, hr]
    | ok sNew => simp [hp, hr] at h

/-- A successful pre-check certifies every requested line: non-empty id,
positive quantity, existing product, and sufficient stock at pre-check
time. -/
theorem precheckItems_ok_sound (s : Store) (l : List OrderProduct) (t : Int)
    (items : List PricedItem) (h : precheckItems s l = Except.ok (t, items)) :
    ∀ item ∈ l, item.productId ≠ "" ∧ 1 ≤ item.quantity ∧
      ∃ p, findProduct s item.productId = some p ∧ item.quantity ≤ p.stock := by
  induction l generalizing t items with
  | nil => intro item hmem; cases hmem
  | cons hd rest ih =>
    intro item hmem
    unfold precheckItems at h
    split at h
    · cases h
    next hbad =>
      split at h
      · cases h
      next product hfind =>
        split at h
        · cases h
        next hstock =>
          split at h
          · cases h
          next total its hrest =>
            cases h
            rcases List.mem_cons.mp hmem with rfl | hmem
            · push_neg at hbad
              exact ⟨hbad.1, by omega, product, hfind, by omega⟩
            · exact ih total its hrest item hmem

/-- A successful pre-check returns the authoritative pricing: the total is
the sum of the line prices and each line carries the database unit price
times the requested quantity. -/
theorem precheckItems_ok_pricing (s : Store) (l : List OrderProduct) (t : Int)
    (items : List PricedItem) (h : precheckItems s l = Except.ok (t, items)) :
    t = (items.map PricedItem.price).sum ∧
    List.Forall₂
      (fun (req : OrderProduct) (it : PricedItem) =>
        it.productId = req.productId ∧ it.quantity = req.quantity ∧
        ∃ p, findProduct s req.productId = some p ∧ it.price = p.price * req.quantity)
      l items := by
  induction l generalizing t items with
  | nil =>
    unfold precheckItems at h
    cases h
    exact ⟨rfl, List.Forall₂.nil⟩
  | cons hd rest ih =>
    unfold precheckItems at h
    split at h
    · cases h
    next hbad =>
      split at h
      · cases h
      next product hfind =>
        split at h
        · cases h
        next hstock =>
          split at h
          · cases h
          next total its hrest =>
            cases h
            obtain ⟨hsum, hrel⟩ := ih total its hrest
            exact ⟨by simp [hsum], List.Forall₂.cons ⟨rfl, rfl, product, hfind, rfl⟩ hrel⟩

theorem sumQtyPriced_cons (item : PricedItem) (rest : List PricedItem) (pid : String) :
    sumQtyPriced (item :: rest) pid =
      (if item.productId = pid then item.quantity else 0) + sumQtyPriced rest pid := by
  unfold sumQtyPriced
  by_cases hc : item.productId = pid
  · simp [List.filter_cons, hc]
  · simp [List.filter_cons, hc]

theorem sumQtyRequested_cons (item : OrderProduct) (rest : List OrderProduct) (pid : String) :
    sumQtyRequested (item :: rest) pid =
      (if item.productId = pid then item.quantity else 0) + sumQtyRequested rest pid := by
  unfold sumQtyRequested
  by_cases hc : item.productId = pid
  · simp [List.filter_cons, hc]
  · simp [List.filter_cons, hc]

theorem sumQtyPriced_eq_requested (l : List OrderProduct) (items : List PricedItem)
    (hrel : List.Forall₂ (fun (req : OrderProduct) (it : PricedItem) =>
      it.productId = req.productId ∧ it.quantity = req.quantity) l items) (pid : String) :
    sumQtyPriced items pid = sumQtyRequested l pid := by
  induction hrel with
  | nil => rfl
  | cons hr hrest ih =>
    obtain ⟨hid, hqty⟩ := hr
    rw [sumQtyPriced_cons, sumQtyRequested_cons, ih, hid, hqty]

/-- A committed transaction appends exactly the Order row and the OrderLine
rows of the request, in order. -/
theorem txItems_ok_rows (oid : Nat) (l : List PricedItem) (s s2 : Store)
    (h : txItems oid s l = Except.ok s2) :
    s2.orders = s.orders ∧ s2.nextOrderId = s.nextOrderId ∧
    s2.orderItems = s.orderItems ++
      l.map (fun it => (⟨oid, it.productId, it.quantity, it.price⟩ : OrderItemRow)) := by
  induction l generalizing s with
  | nil => unfold txItems at h; cases h; simp
  | cons item rest ih =>
    unfold txItems at h
    split at h
    · cases h
    next product hfind =>
      split at h
      · cases h
      next hstock =>
        obtain ⟨ho, hn, hi⟩ := ih _ h
        refine ⟨by simpa using ho, by simpa using hn, ?_⟩
        rw [hi]
        simp

/-- The transaction body preserves the primary-key invariant and the stock
invariant: every decrement is guarded by the in-transaction re-check. -/
theorem txItems_preserves (oid : Nat) (l : List PricedItem) (s2 : Store) :
    ∀ s : Store, idsNodup s → stocksNonneg s → txItems oid s l = Except.ok s2 →
    idsNodup s2 ∧ stocksNonneg s2 := by
  induction l with
  | nil => intro s hids hnn h; unfold txItems at h; cases h; exact ⟨hids, hnn⟩
  | cons item rest ih =>
    intro s hids hnn h
    unfold txItems at h
    split at h
    · cases h
    next product hfind =>
      split at h
      · cases h
      next hstock =>
        apply ih _ ?_ ?_ h
        · unfold idsNodup at *
          simpa [decrementStock_map_id] using hids
        · intro p hp
          simp only [decrementStock, List.mem_map] at hp
          obtain ⟨p0, hp0, rfl⟩ := hp
          by_cases hc : p0.id = item.productId
          · have hpe : product = p0 := by
              apply findProduct_eq_of_mem s hids p0 hp0
              rw [hc]; exact hfind
            have h0 := hnn p0 hp0
            subst hpe
            simp only [hc, beq_self_eq_true, if_true]
            show 0 ≤ product.stock - item.quantity
            omega
          · have : (p0.id == item.productId) = false := by
              simpa using hc
            simp only [this, Bool.false_eq_true, if_false]
            exact hnn p0 hp0

/-- A committed transaction decrements each product's stock by exactly the
summed requested quantity of the lines naming it. -/
theorem txItems_stock_accounting (oid : Nat) (l : List PricedItem) (s2 : Store) :
    ∀ (s : Store) (p : Product), txItems oid s l = Except.ok s2 → p ∈ s.products →
    ∃ q ∈ s2.products, q.id = p.id ∧ q.stock = p.stock - sumQtyPriced l p.id := by
  induction l with
  | nil =>
    intro s p h hp
    unfold txItems at h; cases h
    exact ⟨p, hp, rfl, by simp [sumQtyPriced]⟩
  | cons item rest ih =>
    intro s p h hp
    unfold txItems at h
    split at h
    · cases h
    next product hfind =>
      split at h
      · cases h
      next hstock =>
        have hp1 : (if p.id == item.productId then { p with stock := p.stock - item.quantity }
              else p) ∈ decrementStock s.products item.productId item.quantity := by
          unfold decrementStock
          exact List.mem_map_of_mem _ hp
        obtain ⟨q, hq, hqid, hqstock⟩ := ih _ _ h hp1
        by_cases hc : p.id = item.productId
        · have hc2 : (p.id == item.productId) = true := by simpa using hc
          rw [hc2] at hqid hqstock
          simp only [if_true] at hqid hqstock
          refine ⟨q, hq, by simpa using hqid, ?_⟩
          rw [hqstock, sumQtyPriced_cons]
          have : ((if p.id == item.productId then { p with stock := p.stock - item.quantity }
              else p) : Product).id = p.id := by rw [hc2]; simp
          rw [show ((({ p with stock := p.stock - item.quantity } : Product)).id) = p.id from rfl]
          rw [if_pos hc.symm]
          omega
        · have hc2 : (p.id == item.productId) = false := by simpa using hc
          rw [hc2] at hqid hqstock
          simp only [Bool.false_eq_true, if_false] at hqid hqstock
          refine ⟨q, hq, hqid, ?_⟩
          rw [hqstock, sumQtyPriced_cons]
          rw [if_neg (fun hh => hc hh.symm)]
          omega

theorem precheck_ok (s : Store) (d : CreateOrderData) (t : Int) (items : List PricedItem)
    (h : precheck s d = Except.ok (t, items)) :
    precheckItems s d.products = Except.ok (t, items) := by
  unfold precheck at h
  split at h
  · cases h
  · exact h

theorem createOrder_precheck_error (s : Store) (d : CreateOrderData) (e : OrderError)
    (h : precheck s d = Except.error e) : createOrder s d = (s, Except.error e) := by
  unfold createOrder createOrderRaced
  rw [h]

/-- A not-found pre-check failure names a product id that really is absent
from the store. -/
theorem precheckItems_notFound (s : Store) (l : List OrderProduct) (pid : String)
    (h : precheckItems s l = Except.error (OrderError.notFound pid)) :
    findProduct s pid = none := by
  induction l with
  | nil => unfold precheckItems at h; cases h
  | cons hd rest ih =>
    unfold precheckItems at h
    split at h
    · simp at h
    next hbad =>
      split at h
      next hfind =>
        injection h with h2
        cases h2
        exact hfind
      next product hfind =>
        split at h
        · simp at h
        next hstock =>
          split at h
          next e heq =>
            injection h with h2
            subst h2
            exact ih heq
          next t items heq => cases h

/-- An insufficient-stock pre-check failure reports a requested line's
product by name, together with its actual stock and the requested
quantity, and the stock really is short. -/
theorem precheckItems_insufficient (s : Store) (l : List OrderProduct) (nm : String)
    (avail req : Int)
    (h : precheckItems s l = Except.error (OrderError.insufficientStock nm avail req)) :
    avail < req ∧ ∃ item ∈ l, item.quantity = req ∧
      ∃ p, findProduct s item.productId = some p ∧ p.name = nm ∧ p.stock = avail := by
  induction l with
  | nil => unfold precheckItems at h; cases h
  | cons hd rest ih =>
    unfold precheckItems at h
    split at h
    · simp at h
    next hbad =>
      split at h
      next hfind => simp at h
      next product hfind =>
        split at h
        next hstock =>
          injection h with h2
          injection h2 with e1 e2 e3
          subst e1; subst e2; subst e3
          exact ⟨hstock, hd, List.mem_cons_self hd rest, rfl, product, hfind, rfl, rfl⟩
        next hstock =>
          split at h
          next e heq =>
            injection h with h2
            subst h2
            obtain ⟨h1, item, hmem, hrest⟩ := ih heq
            exact ⟨h1, item, List.mem_cons_of_mem hd hmem, hrest⟩
          next t items heq => cases h

/-! ## Claim theorems -/

/-- C2: Order placement is all-or-nothing.  Whenever order placement fails —
in particular when any in-transaction re-check fails (product absent or
stock below the requested quantity for any line) — the resulting store is
exactly the pre-transaction store: no Order row, no OrderLine rows and no
stock change are persisted for any line of the order.  `sPre` is the
snapshot the pre-check read and `sTx` the store the transaction ran
against, so the statement also covers a race between the two phases. -/
theorem order_placement_all_or_nothing (sPre sTx : Store) (d : CreateOrderData)
    (e : OrderError) (h : (createOrderRaced sPre sTx d).2 = Except.error e) :
    (createOrderRaced sPre sTx d).1.orders = sTx.orders ∧
    (createOrderRaced sPre sTx d).1.orderItems = sTx.orderItems ∧
    (createOrderRaced sPre sTx d).1.products = sTx.products := by
  rw [createOrderRaced_error_state sPre sTx d e h]
  exact ⟨rfl, rfl, rfl⟩

/-- Witness for C2: an order of two lines of 3 units each against a stock
of 5 passes the pre-check but fails the second line's in-transaction
re-check (2 available, 3 requested), and the store is left untouched. -/
theorem order_placement_all_or_nothing_witness :
    (createOrderRaced exStore exStore
        ⟨"u2", none, [⟨"p1", 3⟩, ⟨"p1", 3⟩]⟩).2 =
      Except.error (OrderError.insufficientStock "Laptop" 2 3) ∧
    (createOrderRaced exStore exStore ⟨"u2", none, [⟨"p1", 3⟩, ⟨"p1", 3⟩]⟩).1.orders =
      exStore.orders ∧
    (createOrderRaced exStore exStore ⟨"u2", none, [⟨"p1", 3⟩, ⟨"p1", 3⟩]⟩).1.orderItems =
      exStore.orderItems ∧
    (createOrderRaced exStore exStore ⟨"u2", none, [⟨"p1", 3⟩, ⟨"p1", 3⟩]⟩).1.products =
      exStore.products :=
  ⟨by decide,
   (order_placement_all_or_nothing exStore exStore ⟨"u2", none, [⟨"p1", 3⟩, ⟨"p1", 3⟩]⟩
      (OrderError.insufficientStock "Laptop" 2 3) (by decide)).1,
   (order_placement_all_or_nothing exStore exStore ⟨"u2", none, [⟨"p1", 3⟩, ⟨"p1", 3⟩]⟩
      (OrderError.insufficientStock "Laptop" 2 3) (by decide)).2.1,
   (order_placement_all_or_nothing exStore exStore ⟨"u2", none, [⟨"p1", 3⟩, ⟨"p1", 3⟩]⟩
      (OrderError.insufficientStock "Laptop" 2 3) (by decide)).2.2⟩

/-- C6: Order pre-validation.  An empty product list, an invalid line
(empty productId or quantity below 1), a missing product, or insufficient
stock all make order placement fail with the store unchanged; a not-found
failure names an id that is really absent, and an insufficient-stock
failure names the product (by name) with its actual stock and the
requested quantity. -/
theorem order_prevalidation_rejects (s : Store) (d : CreateOrderData) :
    (d.products = [] → createOrder s d = (s, Except.error OrderError.emptyOrder)) ∧
    ((∃ item ∈ d.products, item.productId = "" ∨ item.quantity < 1 ∨
        findProduct s item.productId = none ∨
        (∃ p, findProduct s item.productId = some p ∧ p.stock < item.quantity)) →
      ∃ e, createOrder s d = (s, Except.error e)) ∧
    (∀ pid, precheck s d = Except.error (OrderError.notFound pid) →
      findProduct s pid = none) ∧
    (∀ nm avail req, precheck s d = Except.error (OrderError.insufficientStock nm avail req) →
      avail < req ∧ ∃ item ∈ d.products, item.quantity = req ∧
        ∃ p, findProduct s item.productId = some p ∧ p.name = nm ∧ p.stock = avail) := by
  refine ⟨?_, ?_, ?_, ?_⟩
  · intro hempty
    apply createOrder_precheck_error
    unfold precheck
    rw [if_pos hempty]
  · intro hbad
    cases hp : precheck s d with
    | error e => exact ⟨e, createOrder_precheck_error s d e hp⟩
    | ok v =>
      obtain ⟨t, items⟩ := v
      exfalso
      have hsound := precheckItems_ok_sound s d.products t items (precheck_ok s d t items hp)
      obtain ⟨item, hmem, hcase⟩ := hbad
      obtain ⟨hid, hqty, p, hfind, hstock⟩ := hsound item hmem
      rcases hcase with hc | hc | hc | ⟨q, hq, hqs⟩
      · exact hid hc
      · omega
      · rw [hfind] at hc; cases hc
      · rw [hfind] at hq
        injection hq with hq
        subst hq
        omega
  · intro pid hp
    unfold precheck at hp
    split at hp
    · cases hp
    · exact precheckItems_notFound s d.products pid hp
  · intro nm avail req hp
    unfold precheck at hp
    split at hp
    · cases hp
    · exact precheckItems_insufficient s d.products nm avail req hp

/-- Witness for C6: a line referencing the missing id "ghost" is rejected;
the theorem's not-found branch confirms the id is absent from the store. -/
theorem order_prevalidation_rejects_witness :
    (∃ e, createOrder exStore ⟨"u2", none, [⟨"ghost", 1⟩]⟩ =
        (exStore, Except.error e)) ∧
    findProduct exStore "ghost" = none :=
  ⟨(order_prevalidation_rejects exStore ⟨"u2", none, [⟨"ghost", 1⟩]⟩).2.1
      ⟨⟨"ghost", 1⟩, by decide, by right; right; left; decide⟩,
   (order_prevalidation_rejects exStore ⟨"u2", none, [⟨"ghost", 1⟩]⟩).2.2.1 "ghost"
      (by decide)⟩

/-- C4: Authoritative pricing.  A successful order placement persists, for
each requested line, an OrderLine whose price is the product's unit price
as read from the store times the requested quantity, and an Order row
whose total is the sum of those line prices.  The request type
(`CreateOrderData` / `OrderProduct`, mirroring the service interfaces)
carries no price field, so no client-supplied price can influence the
stored values. -/
theorem order_pricing_authoritative (s : Store) (d : CreateOrderData) (r : OrderResult)
    (h : (createOrder s d).2 = Except.ok r) :
    ∃ t items, precheck s d = Except.ok (t, items) ∧
      r.totalPrice = t ∧
      t = (items.map PricedItem.price).sum ∧
      List.Forall₂ (fun (req : OrderProduct) (it : PricedItem) =>
        it.productId = req.productId ∧ it.quantity = req.quantity ∧
        ∃ p, findProduct s req.productId = some p ∧ it.price = p.price * req.quantity)
        d.products items ∧
      (createOrder s d).1.orders = s.orders ++
        [⟨s.nextOrderId, d.userId, d.description, t, "pending"⟩] ∧
      (createOrder s d).1.orderItems = s.orderItems ++
        items.map (fun it => (⟨s.nextOrderId, it.productId, it.quantity, it.price⟩ :
          OrderItemRow)) := by
  have hinv : ∃ t items sNew, precheck s d = Except.ok (t, items) ∧
      runTx s d.userId d.description t items = Except.ok sNew := by
    unfold createOrder createOrderRaced at h
    split at h
    · simp at h
    next total items heq =>
      split at h
      · simp at h
      next sNew heq2 => exact ⟨total, items, sNew, heq, heq2⟩
  obtain ⟨t, items, sNew, hp2, hr2⟩ := hinv
  have heq : createOrder s d = (sNew, Except.ok ⟨s.nextOrderId, t⟩) := by
    simp [createOrder, createOrderRaced, hp2, hr2]
  have hre : r = (⟨s.nextOrderId, t⟩ : OrderResult) := by
    rw [heq] at h
    exact (Except.ok.inj h).symm
  obtain ⟨hsum, hrel⟩ :=
    precheckItems_ok_pricing s d.products t items (precheck_ok s d t items hp2)
  unfold runTx at hr2
  obtain ⟨ho, hn, hi⟩ := txItems_ok_rows s.nextOrderId items _ sNew hr2
  refine ⟨t, items, hp2, by rw [hre], hsum, hrel, ?_, ?_⟩
  · rw [heq]
    simpa using ho
  · rw [heq]
    simpa using hi

/-- Witness for C4: one line of 2 units of the 999-priced product commits
with line price 1998 and total 1998. -/
theorem order_pricing_authoritative_witness :
    ∃ t items, precheck exStore ⟨"u2", none, [⟨"p1", 2⟩]⟩ = Except.ok (t, items) ∧
      (OrderResult.mk 0 1998).totalPrice = t ∧
      t = (items.map PricedItem.price).sum ∧
      List.Forall₂ (fun (req : OrderProduct) (it : PricedItem) =>
        it.productId = req.productId ∧ it.quantity = req.quantity ∧
        ∃ p, findProduct exStore req.productId = some p ∧ it.price = p.price * req.quantity)
        [(⟨"p1", 2⟩ : OrderProduct)] items ∧
      (createOrder exStore ⟨"u2", none, [⟨"p1", 2⟩]⟩).1.orders = exStore.orders ++
        [⟨exStore.nextOrderId, "u2", none, t, "pending"⟩] ∧
      (createOrder exStore ⟨"u2", none, [⟨"p1", 2⟩]⟩).1.orderItems = exStore.orderItems ++
        items.map (fun it => (⟨exStore.nextOrderId, it.productId, it.quantity, it.price⟩ :
          OrderItemRow)) :=
  order_pricing_authoritative exStore ⟨"u2", none, [⟨"p1", 2⟩]⟩ ⟨0, 1998⟩ (by decide)

/-- C9: Lines repeating a product id are re-checked inside the transaction
against the stock already decremented by the earlier lines of the same
order, so any order whose summed requested quantity for one product
exceeds that product's stock is rejected with the store left unchanged —
even when each individual line passes the pre-check against the original
stock. -/
theorem duplicate_lines_rejected (s : Store) (d : CreateOrderData) (pid : String)
    (p : Product) (hids : idsNodup s) (hnn : stocksNonneg s)
    (hp : findProduct s pid = some p)
    (hover : p.stock < sumQtyRequested d.products pid) :
    ∃ e, createOrder s d = (s, Except.error e) := by
  cases hres : (createOrder s d).2 with
  | error e =>
    refine ⟨e, ?_⟩
    have hst : (createOrder s d).1 = s := createOrderRaced_error_state s s d e hres
    calc createOrder s d = ((createOrder s d).1, (createOrder s d).2) := rfl
      _ = (s, Except.error e) := by rw [hst, hres]
  | ok r =>
    exfalso
    have hinv : ∃ t items sNew, precheck s d = Except.ok (t, items) ∧
        runTx s d.userId d.description t items = Except.ok sNew := by
      unfold createOrder createOrderRaced at hres
      split at hres
      · simp at hres
      next total items heq =>
        split at hres
        · simp at hres
        next sNew heq2 => exact ⟨total, items, sNew, heq, heq2⟩
    obtain ⟨t, items, sNew, hpc, hr⟩ := hinv
    unfold runTx at hr
    obtain ⟨hsum, hrel⟩ :=
      precheckItems_ok_pricing s d.products t items (precheck_ok s d t items hpc)
    have hrel2 : List.Forall₂
        (fun (req : OrderProduct) (it : PricedItem) =>
          it.productId = req.productId ∧ it.quantity = req.quantity)
        d.products items :=
      hrel.imp (fun _ _ hx => ⟨hx.1, hx.2.1⟩)
    have hqty := sumQtyPriced_eq_requested d.products items hrel2 pid
    have hpmem : p ∈ s.products := findProduct_mem s pid p hp
    have hpid : p.id = pid := findProduct_id s pid p hp
    obtain ⟨q, hq, hqid, hqstock⟩ :=
      txItems_stock_accounting s.nextOrderId items sNew _ p hr hpmem
    have hids2 : idsNodup { s with
        orders := s.orders ++ [⟨s.nextOrderId, d.userId, d.description, t, "pending"⟩],
        nextOrderId := s.nextOrderId + 1 } := hids
    have hnn2 : stocksNonneg { s with
        orders := s.orders ++ [⟨s.nextOrderId, d.userId, d.description, t, "pending"⟩],
        nextOrderId := s.nextOrderId + 1 } := hnn
    have hpos : idsNodup sNew ∧ stocksNonneg sNew :=
      txItems_preserves s.nextOrderId items sNew _ hids2 hnn2 hr
    have hq0 : 0 ≤ q.stock := hpos.2 q hq
    rw [hqstock, hpid, hqty] at hq0
    omega

/-- Witness for C9: two lines of 3 units each against a stock of 5 — each
line alone passes the pre-check — are rejected and the store is unchanged. -/
theorem duplicate_lines_rejected_witness :
    ∃ e, createOrder exStore ⟨"u3", none, [⟨"p1", 3⟩, ⟨"p1", 3⟩]⟩ =
      (exStore, Except.error e) :=
  duplicate_lines_rejected exStore ⟨"u3", none, [⟨"p1", 3⟩, ⟨"p1", 3⟩]⟩ "p1" exProduct
    (by decide) (by decide) (by decide) (by decide)

/-- The prepared update data never touches stock unless an explicit stock
value is supplied, in which case that value is written. -/
theorem applyUpdate_stock (u : UpdateProductData) (p : Product) :
    (applyUpdate u p).stock = u.stock.getD p.stock := by
  unfold applyUpdate
  rcases u with ⟨n, dsc, pr, st, cat, img⟩
  cases n <;> cases dsc <;> cases pr <;> cases st <;> cases cat <;> cases img <;>
    simp only [apply_ite Product.stock, ite_self, Option.getD_some, Option.getD_none]

theorem runTx_preserves (s sNew : Store) (uid : String) (dsc : Option String) (t : Int)
    (items : List PricedItem) (hids : idsNodup s) (hnn : stocksNonneg s)
    (h : runTx s uid dsc t items = Except.ok sNew) :
    idsNodup sNew ∧ stocksNonneg sNew := by
  unfold runTx at h
  have hids2 : idsNodup { s with
      orders := s.orders ++ [⟨s.nextOrderId, uid, dsc, t, "pending"⟩],
      nextOrderId := s.nextOrderId + 1 } := hids
  have hnn2 : stocksNonneg { s with
      orders := s.orders ++ [⟨s.nextOrderId, uid, dsc, t, "pending"⟩],
      nextOrderId := s.nextOrderId + 1 } := hnn
  exact txItems_preserves s.nextOrderId items sNew _ hids2 hnn2 h

/-- C1: Stock never goes negative.  Starting from a store with distinct
product ids and non-negative stocks: order placement (whose transaction
decrements only after its in-transaction re-read shows stock at or above
the requested quantity) leaves every stock non-negative even when the
pre-check ran against a different snapshot; product creation with a
route-validated (non-negative) stock input writes no negative stock; and a
committed product update with a route-validated stock input leaves every
stock non-negative. -/
theorem stock_never_negative (s : Store) (hids : idsNodup s) (hnn : stocksNonneg s) :
    (∀ sPre d, stocksNonneg (createOrderRaced sPre s d).1) ∧
    (∀ c newId pd now, ValidStockInput pd.stock →
      stocksNonneg (createProduct s c newId pd now).1) ∧
    (∀ c pid u isAdmin userId s2 c2,
      (∀ v, u.stock = some v → ValidStockInput v) →
      updateProduct s c pid u isAdmin userId = Except.ok (s2, c2) →
      stocksNonneg s2) := by
  refine ⟨?_, ?_, ?_⟩
  · intro sPre d
    unfold createOrderRaced
    split
    · exact hnn
    next total items heq =>
      split
      · exact hnn
      next sNew heq2 =>
        exact (runTx_preserves s sNew d.userId d.description total items hids hnn heq2).2
  · intro c newId pd now hv
    intro p hp
    simp only [createProduct, List.mem_append, List.mem_singleton] at hp
    rcases hp with hp | hp
    · exact hnn p hp
    · subst hp
      exact hv
  · intro c pid u isAdmin userId s2 c2 hv hup
    unfold updateProduct at hup
    split at hup
    · cases hup
    next existing hfind =>
      split at hup
      · cases hup
      · injection hup with hpair
        cases hpair
        intro p hp
        simp only [List.mem_map] at hp
        obtain ⟨p0, hp0, rfl⟩ := hp
        by_cases hc : p0.id == pid
        · rw [if_pos hc, applyUpdate_stock]
          cases hu : u.stock with
          | none => simpa using hnn p0 hp0
          | some v => simpa using hv v hu
        · rw [if_neg hc]
          exact hnn p0 hp0

/-- Witness for C1: evaluated on the concrete two-product store — a raced
order placement, a product creation with stock 3, and a committed stock
update to 7 all leave every stock non-negative. -/
theorem stock_never_negative_witness :
    stocksNonneg (createOrderRaced exStore exStore ⟨"u9", none, [⟨"p1", 5⟩]⟩).1 ∧
    stocksNonneg (createProduct exStore exCache "p3"
      ⟨"Mouse", "A mouse", 25, 3, "electronics", "u1", none⟩ 200).1 ∧
    stocksNonneg
      { exStore with products := (exStore.products.map
          (fun p => if p.id == "p2" then applyUpdate { stock := some 7 } p else p)) } :=
  ⟨(stock_never_negative exStore (by decide) (by decide)).1 exStore ⟨"u9", none, [⟨"p1", 5⟩]⟩,
   (stock_never_negative exStore (by decide) (by decide)).2.1 exCache "p3"
      ⟨"Mouse", "A mouse", 25, 3, "electronics", "u1", none⟩ 200 (by decide),
   (stock_never_negative exStore (by decide) (by decide)).2.2 exCache "p2"
      { stock := some 7 } true none _ _ (fun v hv => by cases hv; decide) rfl⟩

theorem deleteCacheByPattern_removes (c : CacheState) (pattern : String)
    (hc : c.failed = false) (kv : String × Json)
    (hkv : kv ∈ (deleteCacheByPattern c pattern).entries) :
    strStartsWith (pattern.dropRight 1) kv.1 = false := by
  unfold deleteCacheByPattern at hkv
  rw [hc] at hkv
  simp only [Bool.false_eq_true, if_false] at hkv
  have hcond := (List.mem_filter.mp hkv).2
  simpa using hcond

/-- C7: Cache failures are absorbed.  With the cache adapter unreachable, a
cache read reports a miss and the store is queried, a cache write leaves
the cache unchanged, every catalog query returns exactly the store-only
result, and order placement returns exactly the store-only result with the
cache untouched; no cache error reaches the caller. -/
theorem cache_failure_absorbed (s : Store) (c : CacheState) (o : ListOptions)
    (hf : c.failed = true) :
    getProductList s c o = (dbProductQuery s o, c) ∧
    (∀ d, (placeOrder s c d).1.1 = (createOrder s d).1 ∧
      (placeOrder s c d).1.2 = c ∧
      (placeOrder s c d).2 = (createOrder s d).2) := by
  constructor
  · unfold getProductList
    dsimp only
    have hg : getCache c (generateProductListCacheKey o) = none := by
      simp [getCache, hf]
    rw [hg]
    simp [setCache, hf]
  · intro d
    exact ⟨rfl, rfl, rfl⟩

/-- Witness for C7: on the concrete store with an unreachable cache, the
catalog query returns the store-computed result and the dead cache
unchanged, and a concrete order placement succeeds exactly as without a
cache. -/
theorem cache_failure_absorbed_witness :
    getProductList exStore ⟨[("products:page:1:limit:10", Json.null)], true⟩ {} =
      (dbProductQuery exStore {},
        ⟨[("products:page:1:limit:10", Json.null)], true⟩) ∧
    (placeOrder exStore ⟨[("products:page:1:limit:10", Json.null)], true⟩
        ⟨"u2", none, [⟨"p2", 1⟩]⟩).2 =
      (createOrder exStore ⟨"u2", none, [⟨"p2", 1⟩]⟩).2 :=
  ⟨(cache_failure_absorbed exStore ⟨[("products:page:1:limit:10", Json.null)], true⟩ {}
      rfl).1,
   ((cache_failure_absorbed exStore ⟨[("products:page:1:limit:10", Json.null)], true⟩ {}
      rfl).2 ⟨"u2", none, [⟨"p2", 1⟩]⟩).2.2⟩

/-- C3 counterexample: a successful order placement does not purge the
catalog cache — the order path contains no cache invalidation call, so a
`products:`-prefixed entry survives a committed order, contradicting the
claim that the invalidation coordinator runs after every successful order
placement. -/
theorem order_placement_leaves_catalog_cache :
    (placeOrder exStore exCache ⟨"u2", none, [⟨"p1", 1⟩]⟩).2 =
      Except.ok ⟨0, 999⟩ ∧
    (placeOrder exStore exCache ⟨"u2", none, [⟨"p1", 1⟩]⟩).1.2.entries =
      [("products:page:1:limit:10", Json.null), ("session:42", Json.null)] ∧
    strStartsWith "products:" "products:page:1:limit:10" = true := by
  exact ⟨by decide, rfl, by decide⟩

/-- C3 (amended): after every committed product create, product update and
product delete (with the cache reachable), the invalidation coordinator
removes every cache entry whose key begins with `products:`; order
placement, however, never touches the cache — successful or not, it leaves
the cache state exactly as it was. -/
theorem product_mutations_purge_catalog_cache (s : Store) (c : CacheState)
    (hc : c.failed = false) :
    (∀ newId d now, noCatalogEntries (createProduct s c newId d now).2) ∧
    (∀ pid u isAdmin userId s2 c2,
      updateProduct s c pid u isAdmin userId = Except.ok (s2, c2) → noCatalogEntries c2) ∧
    (∀ pid isAdmin userId s2 c2,
      deleteProduct s c pid isAdmin userId = Except.ok (s2, c2) → noCatalogEntries c2) ∧
    (∀ d, (placeOrder s c d).1.2 = c) := by
  have hstar : ("products:*".dropRight 1) = "products:" := by decide
  refine ⟨?_, ?_, ?_, ?_⟩
  · intro newId d now kv hkv
    have := deleteCacheByPattern_removes c "products:*" hc kv hkv
    rwa [hstar] at this
  · intro pid u isAdmin userId s2 c2 hup kv hkv
    unfold updateProduct at hup
    split at hup
    · cases hup
    next existing hfind =>
      split at hup
      · cases hup
      · injection hup with hpair
        cases hpair
        have := deleteCacheByPattern_removes c "products:*" hc kv hkv
        rwa [hstar] at this
  · intro pid isAdmin userId s2 c2 hdel kv hkv
    unfold deleteProduct at hdel
    split at hdel
    · cases hdel
    next existing hfind =>
      split at hdel
      · cases hdel
      · injection hdel with hpair
        cases hpair
        have := deleteCacheByPattern_removes c "products:*" hc kv hkv
        rwa [hstar] at this
  · intro d
    rfl

/-- Witness for C3 (amended): on the concrete cache, a product create, a
committed product update and a committed product delete all leave no
`products:`-prefixed entry, and a successful order placement leaves the
cache exactly as it was. -/
theorem product_mutations_purge_catalog_cache_witness :
    noCatalogEntries (createProduct exStore exCache "p4"
      ⟨"Desk", "A big desk", 300, 2, "furniture", "u1", none⟩ 300).2 ∧
    (∀ s2 c2, updateProduct exStore exCache "p1" { price := some 888 } true none =
      Except.ok (s2, c2) → noCatalogEntries c2) ∧
    (∀ d, (placeOrder exStore exCache d).1.2 = exCache) :=
  ⟨(product_mutations_purge_catalog_cache exStore exCache rfl).1 "p4"
      ⟨"Desk", "A big desk", 300, 2, "furniture", "u1", none⟩ 300,
   fun s2 c2 h => (product_mutations_purge_catalog_cache exStore exCache rfl).2.1 "p1"
      { price := some 888 } true none s2 c2 h,
   (product_mutations_purge_catalog_cache exStore exCache rfl).2.2.2⟩

/-- C5 counterexample: two catalog queries that differ only in `sortBy`
being omitted versus explicitly set to its default value `createdAt`
produce different cache keys, refuting the claimed key identity for
parameters at their default value. -/
theorem cache_key_default_not_normalized :
    generateProductListCacheKey {} = "products:page:1:limit:10" ∧
    generateProductListCacheKey { sortBy := some "createdAt" } =
      "products:page:1:limit:10:sortBy:createdAt" ∧
    generateProductListCacheKey {} ≠
      generateProductListCacheKey { sortBy := some "createdAt" } := by
  exact ⟨by decide, by decide, by decide⟩

/-- C5 (amended): the cache-key function is a deterministic function of the
normalized options; a query with `page` omitted and one with `page=1` get
identical keys, as do one with both size parameters omitted and one with
`limit=10`; an omitted `sortOrder` is normalized to `desc` by the
controller before key generation, so those two shapes also coincide — but
`sortBy` omitted versus explicitly set to its default `createdAt` (and
`sortOrder` omitted versus explicit at the key-function level) yield
different keys, as the counterexample shows. -/
theorem cache_key_normalization (o : ListOptions) :
    generateProductListCacheKey { o with page := some 1 } =
      generateProductListCacheKey { o with page := none } ∧
    generateProductListCacheKey { o with limit := some 10, pageSize := none } =
      generateProductListCacheKey { o with limit := none, pageSize := none } ∧
    (∀ page limit pageSize category search minPrice maxPrice sortBy,
      generateProductListCacheKey
        (controllerOptions page limit pageSize category search minPrice maxPrice sortBy
          none) =
      generateProductListCacheKey
        (controllerOptions page limit pageSize category search minPrice maxPrice sortBy
          (some "desc"))) := by
  exact ⟨rfl, rfl, fun _ _ _ _ _ _ _ _ => rfl⟩

theorem ceilDivNat_bounds (t n : Nat) (hn : 1 ≤ n) :
    t ≤ n * ceilDivNat t n ∧ n * ceilDivNat t n < t + n := by
  unfold ceilDivNat
  have hdm := Nat.div_add_mod (t + n - 1) n
  have hlt : (t + n - 1) % n < n := Nat.mod_lt _ (by omega)
  generalize hA : n * ((t + n - 1) / n) = A at hdm ⊢
  generalize hR : (t + n - 1) % n = R at hdm hlt
  omega

/-- The page size actually used by the catalog query, under the route's
validation: inside 1..100, and exactly 10 when neither size parameter was
supplied. -/
theorem itemsPerPage_bounds (o : ListOptions) (hv : ValidListQuery o) :
    (1 ≤ itemsPerPageOf o ∧ itemsPerPageOf o ≤ 100) ∧
    (o.limit = none → o.pageSize = none → itemsPerPageOf o = 10) := by
  obtain ⟨hpage, hlim, hps⟩ := hv
  unfold itemsPerPageOf
  cases hl : o.limit with
  | some l =>
    obtain ⟨h1, h2⟩ := hlim l hl
    have ht : truthyNum (some l) = true := by
      simp [truthyNum]; omega
    rw [ht]
    simp only [if_true, Option.getD_some]
    exact ⟨⟨h1, h2⟩, fun hcon => by cases hcon⟩
  | none =>
    rw [show truthyNum none = false from rfl]
    simp only [Bool.false_eq_true, if_false]
    cases hp : o.pageSize with
    | some l =>
      obtain ⟨h1, h2⟩ := hps l hp
      have ht : truthyNum (some l) = true := by
        simp [truthyNum]; omega
      rw [ht]
      simp only [if_true, Option.getD_some]
      exact ⟨⟨h1, h2⟩, fun _ hcon => by cases hcon⟩
    | none =>
      rw [show truthyNum none = false from rfl]
      simp only [Bool.false_eq_true, if_false]
      exact ⟨⟨by omega, by omega⟩, fun _ _ => trivial⟩

/-- C8: Pagination.  Under the route's query validation, the effective page
size lies in 1..100 (10 when neither `limit` nor `pageSize` is supplied)
and is the one reported in the result; the store query takes the page slice
at offset (page-1)*pageSize of length pageSize; the reported total is the
number of matching rows; and totalPages is exactly the ceiling of
totalProducts / pageSize, characterized by
totalProducts ≤ pageSize*totalPages < totalProducts + pageSize. -/
theorem catalog_pagination_bounds (s : Store) (o : ListOptions) (hv : ValidListQuery o) :
    1 ≤ (dbProductQuery s o).pageSize ∧ (dbProductQuery s o).pageSize ≤ 100 ∧
    (o.limit = none → o.pageSize = none → (dbProductQuery s o).pageSize = 10) ∧
    (dbProductQuery s o).currentPage = o.page.getD 1 ∧
    (dbProductQuery s o).products =
      ((((s.products.filter (matchesWhere o)).mergeSort (orderLE o)).drop
          (((o.page.getD 1 - 1) * itemsPerPageOf o).toNat)).take
        (itemsPerPageOf o).toNat).map productToSummary ∧
    (dbProductQuery s o).totalProducts =
      Int.ofNat (s.products.filter (matchesWhere o)).length ∧
    (dbProductQuery s o).totalProducts ≤
      (dbProductQuery s o).pageSize * (dbProductQuery s o).totalPages ∧
    (dbProductQuery s o).pageSize * (dbProductQuery s o).totalPages <
      (dbProductQuery s o).totalProducts + (dbProductQuery s o).pageSize := by
  obtain ⟨⟨hs1, hs2⟩, hdef⟩ := itemsPerPage_bounds o hv
  have hps : (dbProductQuery s o).pageSize = itemsPerPageOf o := rfl
  have htn : 1 ≤ (itemsPerPageOf o).toNat := by omega
  have hnat := ceilDivNat_bounds (s.products.filter (matchesWhere o)).length
    (itemsPerPageOf o).toNat htn
  refine ⟨by omega, by omega, ?_, rfl, rfl, rfl, ?_, ?_⟩
  · intro h1 h2
    rw [hps, hdef h1 h2]
  · have h1 := hnat.1
    show Int.ofNat (s.products.filter (matchesWhere o)).length ≤
      itemsPerPageOf o * Int.ofNat (ceilDivNat (s.products.filter (matchesWhere o)).length
        (itemsPerPageOf o).toNat)
    generalize hQ : ceilDivNat (s.products.filter (matchesWhere o)).length
      (itemsPerPageOf o).toNat = Q at h1 ⊢
    generalize hT : (s.products.filter (matchesWhere o)).length = T at h1 ⊢
    zify at h1
    have hPcast : (((itemsPerPageOf o).toNat : Int)) = itemsPerPageOf o := by omega
    rw [hPcast] at h1
    exact_mod_cast h1
  · have h2 := hnat.2
    show itemsPerPageOf o * Int.ofNat (ceilDivNat (s.products.filter (matchesWhere o)).length
        (itemsPerPageOf o).toNat) <
      Int.ofNat (s.products.filter (matchesWhere o)).length + itemsPerPageOf o
    generalize hQ : ceilDivNat (s.products.filter (matchesWhere o)).length
      (itemsPerPageOf o).toNat = Q at h2 ⊢
    generalize hT : (s.products.filter (matchesWhere o)).length = T at h2 ⊢
    zify at h2
    have hPcast : (((itemsPerPageOf o).toNat : Int)) = itemsPerPageOf o := by omega
    rw [hPcast] at h2
    exact_mod_cast h2

/-- Witness for C8: the query limit=20, minPrice=500, maxPrice=2000,
sortBy=price, sortOrder=asc over the concrete store is route-valid; the
theorem then bounds its page size and its totalPages ceiling. -/
theorem catalog_pagination_bounds_witness :
    1 ≤ (dbProductQuery exStore
      ⟨some 1, none, some 20, none, some "Laptop", some 500, some 2000,
        some "price", some "asc"⟩).pageSize ∧
    (dbProductQuery exStore
      ⟨some 1, none, some 20, none, some "Laptop", some 500, some 2000,
        some "price", some "asc"⟩).pageSize ≤ 100 :=
  ⟨(catalog_pagination_bounds exStore
      ⟨some 1, none, some 20, none, some "Laptop", some 500, some 2000,
        some "price", some "asc"⟩ (by decide)).1,
   (catalog_pagination_bounds exStore
      ⟨some 1, none, some 20, none, some "Laptop", some 500, some 2000,
        some "price", some "asc"⟩ (by decide)).2.1⟩

theorem decodeSummary_encodeSummary (p : ProductSummary) :
    decodeSummary (encodeSummary p) = some p := by
  rcases p with ⟨id, name, price, stock, category, description, imageUrl⟩
  cases imageUrl <;> rfl

theorem decodeList_encode {α : Type} (f : α → Json) (g : Json → Option α)
    (hfg : ∀ x, g (f x) = some x) (l : List α) :
    decodeList g (l.map f) = some l := by
  induction l with
  | nil => rfl
  | cons x xs ih => simp [decodeList, hfg, ih]

theorem decode_encode_result (r : ProductListResult) :
    decodeProductListResult (encodeProductListResult r) = some r := by
  rcases r with ⟨products, currentPage, pageSize, totalPages, totalProducts⟩
  simp [decodeProductListResult, encodeProductListResult, Json.getField, Json.asNum,
    decodeList_encode encodeSummary decodeSummary decodeSummary_encodeSummary]

theorem getCache_setCache_same (c : CacheState) (key : String) (v : Json)
    (hf : c.failed = false) :
    getCache (setCache c key v) key = some v := by
  simp [getCache, setCache, hf]

/-- C10: The catalog cache round-trips.  Serializing a catalog result and
parsing it back is the identity (every field of the result record survives
JSON serialization), and re-running the same catalog query on the cache
state left by a first run — with no intervening store mutation — returns
exactly the result of the first run. -/
theorem catalog_cache_round_trip (s : Store) (c : CacheState) (o : ListOptions) :
    (∀ r, decodeProductListResult (encodeProductListResult r) = some r) ∧
    (getProductList s (getProductList s c o).2 o).1 = (getProductList s c o).1 := by
  refine ⟨decode_encode_result, ?_⟩
  cases hg : (getCache c (generateProductListCacheKey o)).bind decodeProductListResult with
  | some cached =>
    have h1 : getProductList s c o = (cached, c) := by
      unfold getProductList
      dsimp only
      rw [hg]
    simp [h1]
  | none =>
    have h1 : getProductList s c o =
        (dbProductQuery s o,
          setCache c (generateProductListCacheKey o)
            (encodeProductListResult (dbProductQuery s o))) := by
      unfold getProductList
      dsimp only
      rw [hg]
    cases hf : c.failed with
    | true =>
      have hsc : setCache c (generateProductListCacheKey o)
          (encodeProductListResult (dbProductQuery s o)) = c := by
        simp [setCache, hf]
      rw [h1, hsc]
      rw [h1]
    | false =>
      have hgc : getCache (setCache c (generateProductListCacheKey o)
            (encodeProductListResult (dbProductQuery s o)))
          (generateProductListCacheKey o) =
          some (encodeProductListResult (dbProductQuery s o)) :=
        getCache_setCache_same c (generateProductListCacheKey o)
          (encodeProductListResult (dbProductQuery s o)) hf
      have h2 : getProductList s (setCache c (generateProductListCacheKey o)
            (encodeProductListResult (dbProductQuery s o))) o =
          (dbProductQuery s o,
            setCache c (generateProductListCacheKey o)
              (encodeProductListResult (dbProductQuery s o))) := by
        unfold getProductList
        dsimp only
        rw [hgc]
        simp [decode_encode_result]
      rw [h1]
      dsimp only
      rw [h2]

end ECom
